import Mathlib

/-!
Verification development for the CustomerBrandSync repository.

The repository holds three Python sources:
* src/Workspace_customer_data.py — the primary Google Ads Customer Match
  uploader (class GoogleAdsUploader): row processing with inline email /
  phone / name / zip handling, batched upload with retry, job monitoring;
* src/attached_assets/Workspace_customer_data.py — an older variant with
  factored helpers (_process_email, _process_phone, _process_name,
  _create_google_ads_operation, _upload_batch_with_retry);
* src/your_python_uploader.py — a standalone CSV uploader
  (create_user_data_operations, hash_data).

Each Lean definition below embeds one Python function or block; doc
comments name the file and lines it comes from.  External collaborators
(hashlib.sha256, the phonenumbers library, the Google Ads service) are
modelled as function parameters: sha : String → String stands for
hashlib.sha256(x.encode()).hexdigest(), and parse / isValid / fmtE164
stand for phonenumbers.parse / is_valid_number / format_number(E164).
-/

namespace CustomerSync

/-- Python str.strip over a character list: drop whitespace from both ends. -/
def stripChars (l : List Char) : List Char :=
  ((l.dropWhile Char.isWhitespace).reverse.dropWhile Char.isWhitespace).reverse

/-- Python str.strip(). -/
def pyStrip (s : String) : String := String.mk (stripChars s.data)

/-- Python str.lower() (ASCII letters; the data here is ASCII PII fields). -/
def pyLower (s : String) : String := String.mk (s.data.map Char.toLower)

/-- Python str.upper(). -/
def pyUpper (s : String) : String := String.mk (s.data.map Char.toUpper)

/-- Python len() of a string (count of characters). -/
def strLen (s : String) : Nat := s.data.length

/-- Python "".join(c for c in s if c.isdigit()). -/
def digitsOnly (s : String) : String := String.mk (s.data.filter Char.isDigit)

/-- Python s.count(c). -/
def countChar (s : String) (c : Char) : Nat := s.data.count c

/-- Python `c in s` for a single character c. -/
def hasChar (s : String) (c : Char) : Bool := s.data.contains c

/-- Python s.split(c)[-1]: the part of s after the last occurrence of c
(the whole string when c does not occur). -/
def afterLastChar (c : Char) (s : String) : String :=
  String.mk ((s.data.reverse.takeWhile (fun x => x != c)).reverse)

/-- Python truthiness of an optional string: None and "" are falsy. -/
def pyTruthy : Option String → Bool
  | none => false
  | some s => s ≠ ""

/-- Field extraction `row[i].strip() if row[i] else None`
(Workspace_customer_data.py lines 357-364; attached variant lines 296-303). -/
def extractField : Option String → Option String
  | none => none
  | some s => if s = "" then none else some (pyStrip s)

/-! ## Batch partitioning

Both uploaders cut the operation list into consecutive slices of
API_BATCH_SIZE elements: src/Workspace_customer_data.py lines 561-571
(index arithmetic over range(batches_count)) and
src/attached_assets/Workspace_customer_data.py lines 477-481 (list
comprehension `operations[i:i+size] for i in range(0, n, size)`); the two
loops produce the same partition, embedded once here. -/
def mkBatches {α : Type} (size : Nat) : List α → List (List α)
  | [] => []
  | x :: xs =>
    if _h : size = 0 then []
    else (x :: xs).take size :: mkBatches size ((x :: xs).drop size)
termination_by l => l.length
decreasing_by
  simp only [List.length_drop, List.length_cons]
  omega

theorem mkBatches_nil {α : Type} (size : Nat) : mkBatches size ([] : List α) = [] := by
  rw [mkBatches]

theorem mkBatches_cons {α : Type} {size : Nat} {l : List α} (hs : size ≠ 0) (hl : l ≠ []) :
    mkBatches size l = l.take size :: mkBatches size (l.drop size) := by
  obtain ⟨x, xs, rfl⟩ := List.exists_cons_of_ne_nil hl
  rw [mkBatches]
  simp [hs]

theorem mkBatches_join {α : Type} (size : Nat) (hs : 0 < size) (l : List α) :
    (mkBatches size l).flatten = l := by
  generalize hn : l.length = n
  induction n using Nat.strong_induction_on generalizing l with
  | _ n ih =>
    by_cases hl : l = []
    · subst hl; rw [mkBatches_nil]; rfl
    · have hsz : size ≠ 0 := by omega
      rw [mkBatches_cons hsz hl]
      have hlen : (l.drop size).length = n - size := by
        rw [List.length_drop, hn]
      have hlt : n - size < n := by
        have : 0 < n := hn ▸ List.length_pos.mpr hl
        omega
      rw [List.flatten_cons, ih (n - size) hlt (l.drop size) hlen, List.take_append_drop]

theorem mkBatches_length {α : Type} (size : Nat) (hs : 0 < size) (l : List α) :
    (mkBatches size l).length = (l.length + size - 1) / size := by
  generalize hn : l.length = n
  induction n using Nat.strong_induction_on generalizing l with
  | _ n ih =>
    by_cases hl : l = []
    · subst hl
      simp only [List.length_nil] at hn
      rw [mkBatches_nil]
      simp only [List.length_nil, ← hn]
      rw [Nat.zero_add, Nat.div_eq_of_lt (Nat.sub_lt hs Nat.one_pos)]
    · have hsz : size ≠ 0 := by omega
      rw [mkBatches_cons hsz hl]
      simp only [List.length_cons]
      have hlen : (l.drop size).length = n - size := by
        rw [List.length_drop, hn]
      have hpos : 0 < n := hn ▸ List.length_pos.mpr hl
      have hlt : n - size < n := by omega
      rw [ih (n - size) hlt (l.drop size) hlen]
      rcases le_or_lt n size with hle | hgt
      · have h0 : n - size = 0 := Nat.sub_eq_zero_of_le hle
        rw [h0, Nat.zero_add, Nat.div_eq_of_lt (Nat.sub_lt hs Nat.one_pos)]
        have h1 : (n + size - 1) / size = 1 := by
          apply Nat.div_eq_of_lt_le
          · omega
          · omega
        omega
      · have e1 : n + size - 1 = (n - 1) + size := by omega
        have e2 : n - size + size - 1 = (n - 1 - size) + size := by omega
        rw [e1, e2, Nat.add_div_right _ hs, Nat.add_div_right _ hs]
        have e3 : n - 1 = (n - 1 - size) + size := by omega
        conv_rhs => rw [e3, Nat.add_div_right _ hs]

theorem mkBatches_mem_mem {α : Type} (size : Nat) (l : List α) :
    ∀ b ∈ mkBatches size l, ∀ x ∈ b, x ∈ l := by
  generalize hn : l.length = n
  induction n using Nat.strong_induction_on generalizing l with
  | _ n ih =>
    intro b hb x hx
    by_cases hl : l = []
    · subst hl; rw [mkBatches_nil] at hb; exact absurd hb (List.not_mem_nil b)
    · by_cases hs : size = 0
      · obtain ⟨y, ys, rfl⟩ := List.exists_cons_of_ne_nil hl
        rw [mkBatches, dif_pos hs] at hb
        exact absurd hb (List.not_mem_nil b)
      · rw [mkBatches_cons hs hl] at hb
        rcases List.mem_cons.mp hb with hb | hb
        · exact List.take_subset size l (hb ▸ hx)
        · have hlen : (l.drop size).length = n - size := by
            rw [List.length_drop, hn]
          have hpos : 0 < n := hn ▸ List.length_pos.mpr hl
          have hlt : n - size < n := by
            have := Nat.pos_of_ne_zero hs; omega
          exact List.drop_subset size l (ih (n - size) hlt (l.drop size) hlen b hb x hx)

/-! ## Data model for the primary uploader (src/Workspace_customer_data.py)

The user-identifier dicts built at lines 463-486 have exactly three shapes,
embedded as a tagged variant. -/

inductive UserIdentifier where
  | email (h : String)
  | phone (h : String)
  | address (hfn hln cc pc : String)
deriving DecidableEq

/-- One element of processed_operations (Workspace_customer_data.py lines
496-501): the identifier list plus passthrough metadata. -/
structure Operation where
  userIdentifiers : List UserIdentifier
  custNo : Option String
  contactGuid : String
  brand : String
deriving DecidableEq

/-- The uploader's counters and accumulated operations
(Workspace_customer_data.py lines 217-222, initialised to zero / empty). -/
structure MainState where
  totalRowsProcessed : Nat := 0
  emailProcessedCount : Nat := 0
  phoneProcessedCount : Nat := 0
  addressProcessedCount : Nat := 0
  rowsWithAnyIdCount : Nat := 0
  processedOperations : List Operation := []
deriving DecidableEq

/-- The state the uploader constructor sets up. -/
def initMain : MainState := {}

/-- One raw database row (columns 0-8 of the stored-procedure result;
column 8, the brand, may be absent — modelled as none).  All fields are
nullable strings except the opaque contact guid. -/
structure Row where
  custNo : Option String := none
  firstName : Option String := none
  lastName : Option String := none
  contactGuid : String := ""
  email : Option String := none
  phone : Option String := none
  zipCode : Option String := none
  stateCode : Option String := none
  brand : Option String := none

/-- The blacklist of problematic name characters
(Workspace_customer_data.py line 380; attached variant line 310). -/
def problemChars : List Char := ['/', '&', '"', ';', ':', '#', '*']

/-- Embeds the email block of _process_customer_row
(src/Workspace_customer_data.py lines 382-394): guard on the raw
(already stripped) value containing at-sign and dot, normalize by
lower + strip, then require length at least 6 and exactly one at-sign.
Returns the hashed email (sha models hashlib.sha256 hexdigest). -/
def processEmailMain (sha : String → String) : Option String → Option String
  | none => none
  | some s =>
    if s ≠ "" ∧ hasChar s '@' ∧ hasChar s '.' then
      let normalized := pyStrip (pyLower s)
      if 6 ≤ strLen normalized ∧ countChar normalized '@' = 1 then some (sha normalized)
      else none
    else none

/-- The parse strategy of the phone block (src/Workspace_customer_data.py
lines 405-416): parse the digit string with default region "US"; if that
parse raises, retry with a "+" prefix and no default region, but only when
the digit string starts with 1 and has more than 10 digits.  parse clean
(some "US") models phonenumbers.parse(clean, "US") (none = raised), and
parse ("+" ++ clean) none models phonenumbers.parse("+" + clean). -/
def parsePlanMain {P : Type} (parse : String → Option String → Option P)
    (clean : String) : Option P :=
  match parse clean (some "US") with
  | some p => some p
  | none =>
    if clean.data.head? = some '1' ∧ 10 < strLen clean then parse ("+" ++ clean) none
    else none

/-- Embeds the phone block of _process_customer_row
(src/Workspace_customer_data.py lines 396-427): guard on raw length ≥ 10,
strip non-digits, parse per parsePlanMain, require telephony validity,
format to E.164 and hash.  Any failure leaves the phone absent. -/
def processPhoneMain {P : Type} (parse : String → Option String → Option P)
    (isValid : P → Bool) (fmtE164 : P → String) (sha : String → String) :
    Option String → Option String
  | none => none
  | some s =>
    if s ≠ "" ∧ 10 ≤ strLen s then
      let clean := digitsOnly s
      if clean ≠ "" then
        match parsePlanMain parse clean with
        | some p => if isValid p then some (sha (fmtE164 p)) else none
        | none => none
      else none
    else none

/-- Result of the name block: the two hashed names and the two flags
has_valid_name / skip_name_for_address. -/
structure NameResult where
  hashedFirst : Option String
  hashedLast : Option String
  hasValidName : Bool
  skipNameForAddress : Bool
deriving DecidableEq

/-- Embeds the name block of _process_customer_row
(src/Workspace_customer_data.py lines 429-445): both names must be truthy;
normalize by lower + strip; reject when a blacklisted character occurs in
the concatenation or either normalized name is shorter than 2. -/
def processNamesMain (sha : String → String) :
    Option String → Option String → NameResult
  | some f, some l =>
    if f ≠ "" ∧ l ≠ "" then
      let fn := pyStrip (pyLower f)
      let ln := pyStrip (pyLower l)
      if (¬ problemChars.any (fun c => (fn.data ++ ln.data).contains c)) ∧
          2 ≤ strLen fn ∧ 2 ≤ strLen ln then
        ⟨some (sha fn), some (sha ln), true, false⟩
      else ⟨none, none, false, true⟩
    else ⟨none, none, false, false⟩
  | _, _ => ⟨none, none, false, false⟩

/-- Result of the zip block: country code, postal code, and the increment
applied to address_processed_count. -/
structure ZipResult where
  countryCode : Option String
  postalCode : Option String
  addressCountInc : Nat
deriving DecidableEq

/-- Embeds the zip block of _process_customer_row
(src/Workspace_customer_data.py lines 447-460): whenever the raw zip is
truthy with length ≥ 5 the country code is set to "US" (the state column
is never consulted); the postal code is the first five digits, kept only
when five digits exist; address_processed_count is bumped only when the
names were valid. -/
def processZipMain : Option String → Bool → Bool → ZipResult
  | none, _, _ => ⟨none, none, 0⟩
  | some z, hasValidName, skipName =>
    if z ≠ "" ∧ 5 ≤ strLen z then
      let cleanZip := String.mk ((z.data.filter Char.isDigit).take 5)
      if strLen cleanZip = 5 then
        ⟨some "US", some cleanZip, if hasValidName ∧ skipName = false then 1 else 0⟩
      else ⟨some "US", none, 0⟩
    else ⟨none, none, 0⟩

/-- The singleton-or-empty identifier lists appended at lines 466-475. -/
def optionToIds (f : String → UserIdentifier) : Option String → List UserIdentifier
  | some h => [f h]
  | none => []

/-- The address identifier appended at lines 477-486: requires country,
postal, both hashed names and not skip_name_for_address. -/
def addressComponentMain (nr : NameResult) (zr : ZipResult) : List UserIdentifier :=
  match zr.countryCode, zr.postalCode, nr.hashedFirst, nr.hashedLast,
      nr.skipNameForAddress with
  | some cc, some pc, some hf, some hl, false => [UserIdentifier.address hf hl cc pc]
  | _, _, _, _, _ => []

/-- The user_identifiers list built at lines 462-486, in append order:
email, phone, address. -/
def buildIdentifiersMain (he hp : Option String) (nr : NameResult) (zr : ZipResult) :
    List UserIdentifier :=
  optionToIds UserIdentifier.email he ++ optionToIds UserIdentifier.phone hp ++
    addressComponentMain nr zr

/-- Brand extraction (lines 366-369): row[8].strip().lower() if truthy. -/
def rowBrandRaw (r : Row) : Option String :=
  match r.brand with
  | none => none
  | some s => if s = "" then none else some (pyLower (pyStrip s))

/-- The brand filter guard (line 372): skip the row iff a non-default brand
filter is set, the row has a truthy brand, and the two differ. -/
def brandSkip : Option String → Option String → Bool
  | some b, some x => b ≠ "" && b ≠ "default" && x ≠ "" && x != b
  | _, _ => false

/-- brand_info (line 493): the row brand, or "unspecified" when falsy. -/
def brandInfo : Option String → String
  | none => "unspecified"
  | some s => if s = "" then "unspecified" else s

/-- The hashed email the row yields. -/
def rowEmail (sha : String → String) (r : Row) : Option String :=
  processEmailMain sha (extractField r.email)

/-- The hashed phone the row yields. -/
def rowPhone {P : Type} (parse : String → Option String → Option P)
    (isValid : P → Bool) (fmtE164 : P → String) (sha : String → String)
    (r : Row) : Option String :=
  processPhoneMain parse isValid fmtE164 sha (extractField r.phone)

/-- The name-block result the row yields. -/
def rowNames (sha : String → String) (r : Row) : NameResult :=
  processNamesMain sha (extractField r.firstName) (extractField r.lastName)

/-- The zip-block result the row yields. -/
def rowZip (sha : String → String) (r : Row) : ZipResult :=
  processZipMain (extractField r.zipCode) (rowNames sha r).hasValidName
    (rowNames sha r).skipNameForAddress

/-- The full identifier list the row yields. -/
def rowIdentifiersMain {P : Type} (parse : String → Option String → Option P)
    (isValid : P → Bool) (fmtE164 : P → String) (sha : String → String)
    (r : Row) : List UserIdentifier :=
  buildIdentifiersMain (rowEmail sha r) (rowPhone parse isValid fmtE164 sha r)
    (rowNames sha r) (rowZip sha r)

/-- The operation a row would contribute (lines 496-501). -/
def rowOperation {P : Type} (parse : String → Option String → Option P)
    (isValid : P → Bool) (fmtE164 : P → String) (sha : String → String)
    (r : Row) : Operation :=
  ⟨rowIdentifiersMain parse isValid fmtE164 sha r, extractField r.custNo,
    r.contactGuid, brandInfo (rowBrandRaw r)⟩

/-- Counter bumps performed inside the email / phone / zip blocks
(lines 392, 425, 460). -/
def bumpCounters (st : MainState) (he hp : Option String) (addrInc : Nat) : MainState :=
  { st with
    emailProcessedCount := st.emailProcessedCount + (if he.isSome then 1 else 0),
    phoneProcessedCount := st.phoneProcessedCount + (if hp.isSome then 1 else 0),
    addressProcessedCount := st.addressProcessedCount + addrInc }

/-- The guarded append of lines 488-501: only a row with at least one
identifier increments rows_with_any_id_count and appends its operation. -/
def appendOperation (st : MainState) (op : Operation) : MainState :=
  if op.userIdentifiers = [] then st
  else
    { st with
      rowsWithAnyIdCount := st.rowsWithAnyIdCount + 1,
      processedOperations := st.processedOperations ++ [op] }

/-- Embeds _process_customer_row (src/Workspace_customer_data.py lines
353-504) for one row: brand filter, the four field blocks with their
counter bumps, then the guarded append. -/
def processRowMain {P : Type} (parse : String → Option String → Option P)
    (isValid : P → Bool) (fmtE164 : P → String) (sha : String → String)
    (brandFilter : Option String) (st : MainState) (r : Row) : MainState :=
  if brandSkip brandFilter (rowBrandRaw r) then st
  else
    appendOperation
      (bumpCounters st (rowEmail sha r) (rowPhone parse isValid fmtE164 sha r)
        (rowZip sha r).addressCountInc)
      (rowOperation parse isValid fmtE164 sha r)

/-- Embeds the fetch loop of fetch_and_process_customer_data
(src/Workspace_customer_data.py lines 335-342): bump
total_rows_processed and process each row in order. -/
def processRowsMain {P : Type} (parse : String → Option String → Option P)
    (isValid : P → Bool) (fmtE164 : P → String) (sha : String → String)
    (brandFilter : Option String) : MainState → List Row → MainState
  | st, [] => st
  | st, r :: rs =>
    processRowsMain parse isValid fmtE164 sha brandFilter
      (processRowMain parse isValid fmtE164 sha brandFilter
        { st with totalRowsProcessed := st.totalRowsProcessed + 1 } r) rs

/-! ## The older variant (src/attached_assets/Workspace_customer_data.py) -/

/-- Embeds _process_email (attached variant lines 351-362): lower + strip,
then require an at-sign and a dot in the part after the last at-sign.
No minimum length and no single-at-sign requirement. -/
def asstProcessEmail (sha : String → String) : Option String → Option String
  | none => none
  | some s =>
    if s = "" then none
    else
      let norm := pyStrip (pyLower s)
      if hasChar norm '@' ∧ hasChar (afterLastChar '@' norm) '.' then some (sha norm)
      else none

/-- Embeds _process_phone (attached variant lines 364-384): require at
least 7 digits, parse the RAW string (not the digit string) with default
region "US", require validity, format to E.164 and require the result to
start with a plus sign, then hash.  Exceptions are swallowed (none). -/
def asstProcessPhone {P : Type} (parse : String → Option String → Option P)
    (isValid : P → Bool) (fmtE164 : P → String) (sha : String → String) :
    Option String → Option String
  | none => none
  | some s =>
    if s = "" then none
    else if 7 ≤ strLen (digitsOnly s) then
      match parse s (some "US") with
      | some p =>
        if isValid p then
          let e := fmtE164 p
          if e ≠ "" ∧ e.data.head? = some '+' then some (sha e) else none
        else none
      | none => none
    else none

/-- Embeds _process_name (attached variant lines 386-396): lower + strip,
reject on a blacklisted character or emptiness; returns the optional hash
and the validity flag. -/
def asstProcessName (sha : String → String) (nameRaw : String) : Option String × Bool :=
  let n := pyStrip (pyLower nameRaw)
  if problemChars.any (fun c => n.data.contains c) ∨ strLen n = 0 then (none, false)
  else (some (sha n), true)

/-- The name handling of the attached _process_customer_row (lines
317-326): skip_name_for_address is set when either raw name is falsy or
either processed name is invalid. -/
def asstProcessNamePair (sha : String → String) :
    Option String → Option String → Option String × Option String × Bool
  | some f, some l =>
    if f ≠ "" ∧ l ≠ "" then
      let fr := asstProcessName sha f
      let lr := asstProcessName sha l
      (fr.1, lr.1, !(fr.2 && lr.2))
    else (none, none, true)
  | _, _ => (none, none, true)

/-- Embeds the state handling of the attached _process_customer_row (lines
329-332): strip + upper, accept exactly-two-CHARACTER codes (no letters
check), yielding country code "US". -/
def asstProcessState : Option String → Option String
  | none => none
  | some s =>
    if s = "" then none
    else if strLen (pyUpper (pyStrip s)) = 2 then some "US" else none

/-- Embeds the zip handling of the attached _process_customer_row (lines
334-337): keep the digits; accept when at least five remain, truncated to
the first five. -/
def asstProcessZip : Option String → Option String
  | none => none
  | some z =>
    if z = "" then none
    else
      let zp := digitsOnly z
      if 5 ≤ strLen zp then some (String.mk (zp.data.take 5)) else none

/-- The attached uploader's counters; its operations carry only the
identifier list (attached variant lines 186-192, 432-439). -/
structure AsstState where
  totalRowsProcessed : Nat := 0
  emailProcessedCount : Nat := 0
  phoneProcessedCount : Nat := 0
  addressProcessedCount : Nat := 0
  rowsWithAnyIdCount : Nat := 0
  ops : List (List UserIdentifier) := []
deriving DecidableEq

/-- The state the attached constructor sets up. -/
def initAsst : AsstState := {}

/-- The address identifier built at attached lines 421-430: requires
not skip_name_for_address and all four components present. -/
def asstAddressComponent (hf hl cc pc : Option String) (skip : Bool) :
    List UserIdentifier :=
  match skip, hf, hl, cc, pc with
  | false, some f, some l, some c, some p => [UserIdentifier.address f l c p]
  | _, _, _, _, _ => []

/-- Embeds _create_google_ads_operation (attached variant lines 398-439):
build the identifier list (email, phone, address), bump
address_processed_count exactly when the address identifier is added, and
append the operation only when the list is non-empty (which also bumps
rows_with_any_id_count).  The early return when no Google Ads client is
initialised (line 403) is not modelled: the client is assumed present, as
it is whenever run() reaches row processing. -/
def asstCreateOperation (st : AsstState) (he hp hf hl cc pc : Option String)
    (skip : Bool) : AsstState :=
  let addr := asstAddressComponent hf hl cc pc skip
  let ids := optionToIds UserIdentifier.email he ++ optionToIds UserIdentifier.phone hp
      ++ addr
  let st1 := { st with addressProcessedCount := st.addressProcessedCount + addr.length }
  if ids = [] then st1
  else
    { st1 with
      rowsWithAnyIdCount := st1.rowsWithAnyIdCount + 1,
      ops := st1.ops ++ [ids] }

/-- Embeds the attached _process_customer_row (lines 292-349) for one row. -/
def asstProcessRow {P : Type} (parse : String → Option String → Option P)
    (isValid : P → Bool) (fmtE164 : P → String) (sha : String → String)
    (st : AsstState) (r : Row) : AsstState :=
  let he := asstProcessEmail sha (extractField r.email)
  let hp := asstProcessPhone parse isValid fmtE164 sha (extractField r.phone)
  let names := asstProcessNamePair sha (extractField r.firstName) (extractField r.lastName)
  let cc := asstProcessState (extractField r.stateCode)
  let pc := asstProcessZip (extractField r.zipCode)
  let st1 :=
    { st with
      emailProcessedCount := st.emailProcessedCount + (if he.isSome then 1 else 0),
      phoneProcessedCount := st.phoneProcessedCount + (if hp.isSome then 1 else 0) }
  asstCreateOperation st1 he hp names.1 names.2.1 cc pc names.2.2

/-- Embeds the attached fetch loop (attached variant lines 274-281). -/
def asstProcessRows {P : Type} (parse : String → Option String → Option P)
    (isValid : P → Bool) (fmtE164 : P → String) (sha : String → String) :
    AsstState → List Row → AsstState
  | st, [] => st
  | st, r :: rs =>
    asstProcessRows parse isValid fmtE164 sha
      (asstProcessRow parse isValid fmtE164 sha
        { st with totalRowsProcessed := st.totalRowsProcessed + 1 } r) rs

/-! ## The standalone CSV uploader (src/your_python_uploader.py) -/

/-- One CSV customer record: the dict fields consulted by
create_user_data_operations (lines 31-75). -/
structure Customer where
  email : Option String := none
  phone : Option String := none
  firstName : Option String := none
  lastName : Option String := none
  country : Option String := none
  zip : Option String := none

/-- Embeds hash_data (your_python_uploader.py lines 25-29): empty input
gives "", otherwise sha256 of the stripped, lowercased value. -/
def hashData (sha : String → String) : Option String → String
  | none => ""
  | some s => if s = "" then "" else sha (pyLower (pyStrip s))

/-- The address_info message of the CSV uploader (lines 56-69): every
field is set independently, only when its source field is truthy. -/
structure AddressInfo where
  hashedFirstName : Option String
  hashedLastName : Option String
  countryCode : Option String
  postalCode : Option String
deriving DecidableEq

/-- The CSV uploader's user-identifier shapes. -/
inductive CsvIdentifier where
  | email (h : String)
  | phone (h : String)
  | address (info : AddressInfo)
deriving DecidableEq

/-- The identifier list built for one customer by
create_user_data_operations (your_python_uploader.py lines 40-69): email
and phone identifiers when truthy, and an address identifier whenever ANY
of first name, last name, country, zip is truthy, carrying just the
truthy components. -/
def csvIdentifiersFor (sha : String → String) (c : Customer) : List CsvIdentifier :=
  (if pyTruthy c.email then [CsvIdentifier.email (hashData sha c.email)] else []) ++
  (if pyTruthy c.phone then [CsvIdentifier.phone (hashData sha c.phone)] else []) ++
  (if pyTruthy c.firstName ∨ pyTruthy c.lastName ∨ pyTruthy c.country ∨ pyTruthy c.zip
    then
      [CsvIdentifier.address
        ⟨(if pyTruthy c.firstName then some (hashData sha c.firstName) else none),
         (if pyTruthy c.lastName then some (hashData sha c.lastName) else none),
         (if pyTruthy c.country then some (pyUpper (c.country.getD "")) else none),
         (if pyTruthy c.zip then c.zip else none)⟩]
    else [])

/-- Embeds create_user_data_operations (your_python_uploader.py lines
31-75): one operation per customer, appended UNCONDITIONALLY — also when
its identifier list is empty. -/
def createUserDataOperations (sha : String → String) (customers : List Customer) :
    List (List CsvIdentifier) :=
  customers.map (csvIdentifiersFor sha)

/-! ## Batch submission with retry — primary implementation

src/Workspace_customer_data.py lines 586-622.  The outcome of one
add_operations network call is classified by the except clause at lines
608-619: success, an exception whose message contains
"ConcurrentModificationException" (retried after backoff), or any other
exception (break: one attempt only). -/

inductive MainCallResult where
  | ok
  | concurrentErr
  | otherErr
deriving DecidableEq

/-- The retry loop `for attempt in range(retry_count)` of lines 588-619,
as a recursion on the remaining iterations.  env attempt is the outcome
of the add_operations call at that attempt.  Returns (success, number of
attempts actually made). -/
def mainBatchGo (env : Nat → MainCallResult) : Nat → Nat → Bool × Nat
  | 0, attempt => (false, attempt)
  | fuel + 1, attempt =>
    match env attempt with
    | MainCallResult.ok => (true, attempt + 1)
    | MainCallResult.otherErr => (false, attempt + 1)
    | MainCallResult.concurrentErr => mainBatchGo env fuel (attempt + 1)

/-- One batch's submission under the primary retry loop with
API_RETRY_COUNT = retryCount. -/
def mainBatchResult (env : Nat → MainCallResult) (retryCount : Nat) : Bool × Nat :=
  mainBatchGo env retryCount 0

/-- How the remote service behaves during one run of upload_to_google_ads:
whether create_offline_user_data_job succeeds (lines 552-559, fatal when
not), the per-batch per-attempt outcome of add_operations, and whether
run_offline_user_data_job succeeds (lines 625-627, caught by the outer
except at 632-634 when not). -/
structure MainEnv where
  /-- get_service plus create_offline_user_data_job both succeeding
  (lines 522-527 and 552-559; either raising returns False). -/
  createJobOk : Bool
  addResult : Nat → Nat → MainCallResult
  runJobOk : Bool

/-- Whether batch b succeeds under the primary retry loop. -/
def mainBatchSucceeds (env : MainEnv) (retryCount b : Nat) : Bool :=
  (mainBatchResult (env.addResult b) retryCount).1

/-- Number of successful batches among the first n. -/
def mainSuccessCount (env : MainEnv) (retryCount n : Nat) : Nat :=
  ((List.range n).filter (mainBatchSucceeds env retryCount)).length

/-- Embeds the return value of upload_to_google_ads
(src/Workspace_customer_data.py lines 506-634): True on an empty
operation list (line 514); False when job creation raises; batch
failures are only logged (lines 621-622) and do NOT affect the result;
after the batch loop the job is run once and the function returns True
unless that call raises. -/
def mainUploadResult (env : MainEnv) (ops : List Operation) : Bool :=
  if ops.isEmpty then true
  else if !env.createJobOk then false
  else if !env.runJobOk then false
  else true

/-! ## Batch submission with retry — attached variant

src/attached_assets/Workspace_customer_data.py lines 441-575.  The
outcome of one add_offline_user_data_job_operations call is classified by
the except clauses at lines 559-573: success, a GoogleAdsException whose
failure mentions CONCURRENT_MODIFICATION (retried), any other
GoogleAdsException (one attempt), or an unexpected non-API exception
(ALSO retried, lines 568-573). -/

inductive AsstCallResult where
  | ok
  | gadsConcurrent
  | gadsOther
  | unexpected
deriving DecidableEq

/-- The retry loop `for retry in range(max_retries + 1)` of
_upload_batch_with_retry (attached variant lines 529-575), as a recursion
on the remaining iterations; retry is the current index, maxRetries the
configured API_RETRY_COUNT.  Returns (success, attempts made). -/
def asstBatchGo (env : Nat → AsstCallResult) (maxRetries : Nat) :
    Nat → Nat → Bool × Nat
  | 0, retry => (false, retry)
  | fuel + 1, retry =>
    match env retry with
    | AsstCallResult.ok => (true, retry + 1)
    | AsstCallResult.gadsOther => (false, retry + 1)
    | AsstCallResult.gadsConcurrent =>
      if retry < maxRetries then asstBatchGo env maxRetries fuel (retry + 1)
      else (false, retry + 1)
    | AsstCallResult.unexpected =>
      if retry < maxRetries then asstBatchGo env maxRetries fuel (retry + 1)
      else (false, retry + 1)

/-- One batch's submission under _upload_batch_with_retry. -/
def asstBatchResult (env : Nat → AsstCallResult) (maxRetries : Nat) : Bool × Nat :=
  asstBatchGo env maxRetries (maxRetries + 1) 0

/-- The remote service's behaviour for one run of the attached
upload_to_google_ads. -/
structure AsstEnv where
  createJobOk : Bool
  addResult : Nat → Nat → AsstCallResult
  runJobOk : Bool

/-- Whether batch b succeeds under the attached retry helper. -/
def asstBatchSucceeds (env : AsstEnv) (maxRetries b : Nat) : Bool :=
  (asstBatchResult (env.addResult b) maxRetries).1

/-- Number of successful batches among the first n. -/
def asstSuccessCount (env : AsstEnv) (maxRetries n : Nat) : Nat :=
  ((List.range n).filter (asstBatchSucceeds env maxRetries)).length

/-- Embeds the return value of the attached upload_to_google_ads
(src/attached_assets/Workspace_customer_data.py lines 441-520): True on
an empty operation list (line 445); False when job creation or the final
run call raises (outer except, lines 515-520); otherwise
batch_success_count > 0 (line 513). -/
def asstUploadResult (env : AsstEnv) (size maxRetries : Nat)
    (ops : List (List UserIdentifier)) : Bool :=
  if ops.isEmpty then true
  else if !env.createJobOk then false
  else if !env.runJobOk then false
  else decide (0 < asstSuccessCount env maxRetries (mkBatches size ops).length)

/-! ## Job monitoring (src/Workspace_customer_data.py lines 659-695)

wait_for_job_completion polls get_offline_user_data_job every 10 seconds
while the elapsed time is below the timeout.  Idealized timing: each poll
is instantaneous and each sleep advances the clock by exactly 10 seconds,
so poll k happens at elapsed time 10·k and is allowed iff 10·k < timeout,
i.e. iff k < (timeout + 9) / 10. -/

/-- The three distinct exits of wait_for_job_completion: status 5 returns
True (line 679-681), status 4 or 6 logs "Job failed with status" and
returns False (lines 682-684), and exhausting the timeout logs "Job
monitoring timed out" and returns False (lines 690-691). -/
inductive MonitorOutcome where
  | success
  | failed (status : Nat)
  | timedOut
deriving DecidableEq

/-- The boolean wait_for_job_completion actually returns for each exit. -/
def monitorBool : MonitorOutcome → Bool
  | MonitorOutcome.success => true
  | _ => false

/-- The poll loop, by recursion on the number of polls still allowed;
statuses k is the status observed by the k-th get call. -/
def waitLoop (statuses : Nat → Nat) : Nat → Nat → MonitorOutcome
  | 0, _ => MonitorOutcome.timedOut
  | fuel + 1, k =>
    if statuses k = 5 then MonitorOutcome.success
    else if statuses k = 4 ∨ statuses k = 6 then MonitorOutcome.failed (statuses k)
    else waitLoop statuses fuel (k + 1)

/-- Embeds wait_for_job_completion with its timeout_seconds argument
(default 300, hence at most 30 polls). -/
def waitForJobCompletion (statuses : Nat → Nat) (timeout : Nat) : MonitorOutcome :=
  waitLoop statuses ((timeout + 9) / 10) 0

/-! # Claim C8 — batch partitioning -/

/-- The concrete partition of 12,001 records at API_BATCH_SIZE = 2500:
five batches sized 2500, 2500, 2500, 2500, 2001. -/
theorem mkBatches_replicate_12001 :
    (mkBatches 2500 (List.replicate 12001 (0 : Nat))).map List.length
      = [2500, 2500, 2500, 2500, 2001] := by
  have step : ∀ n : Nat, n ≠ 0 →
      mkBatches 2500 (List.replicate n (0 : Nat))
        = List.replicate (min 2500 n) 0 :: mkBatches 2500 (List.replicate (n - 2500) 0) := by
    intro n hn
    rw [mkBatches_cons (by norm_num) (by simp [hn])]
    rw [List.take_replicate, List.drop_replicate]
  rw [step 12001 (by norm_num)]
  norm_num
  rw [step 9501 (by norm_num)]
  norm_num
  rw [step 7001 (by norm_num)]
  norm_num
  rw [step 4501 (by norm_num)]
  norm_num
  rw [step 2001 (by norm_num)]
  norm_num
  exact mkBatches_nil 2500

/-- C8 counterexample: partitioning 12,001 records with batch size 2,500
gives batch sizes (2500, 2500, 2500, 2500, 2001), not the claimed
(2500, 2500, 2500, 2500, 1001) — the claim is false at this input. -/
theorem c8_counterexample :
    (mkBatches 2500 (List.replicate 12001 (0 : Nat))).map List.length
        = [2500, 2500, 2500, 2500, 2001] ∧
    (mkBatches 2500 (List.replicate 12001 (0 : Nat))).map List.length
        ≠ [2500, 2500, 2500, 2500, 1001] := by
  refine ⟨mkBatches_replicate_12001, ?_⟩
  rw [mkBatches_replicate_12001]
  decide

/-- C8 (amended): the batch count is ceiling(record count / batch size)
and the batches are consecutive order-preserving slices (their
concatenation is the record list); 12,001 records at batch size 2,500
give 5 batches sized (2500, 2500, 2500, 2500, 2001) — the last batch
holds 2001 records, not 1001. -/
theorem c8_batch_partition (size : Nat) (l : List Nat) (h : 0 < size) :
    (mkBatches size l).length = (l.length + size - 1) / size ∧
    (mkBatches size l).flatten = l ∧
    (mkBatches 2500 (List.replicate 12001 (0 : Nat))).map List.length
      = [2500, 2500, 2500, 2500, 2001] :=
  ⟨mkBatches_length size h l, mkBatches_join size h l, mkBatches_replicate_12001⟩

/-- C8 witness: the partition facts at batch size 3 on a four-element list. -/
theorem c8_batch_partition_witness :
    (mkBatches 3 [0, 1, 2, 3]).length = (([0, 1, 2, 3] : List Nat).length + 3 - 1) / 3 ∧
    (mkBatches 3 [0, 1, 2, 3]).flatten = [0, 1, 2, 3] ∧
    (mkBatches 2500 (List.replicate 12001 (0 : Nat))).map List.length
      = [2500, 2500, 2500, 2500, 2001] :=
  c8_batch_partition 3 [0, 1, 2, 3] (by norm_num)

/-! # Claim C9 — job monitoring -/

theorem waitLoop_timedOut_iff (statuses : Nat → Nat) :
    ∀ (n k : Nat), waitLoop statuses n k = MonitorOutcome.timedOut ↔
      ∀ j, j < n → statuses (k + j) ≠ 5 ∧ statuses (k + j) ≠ 4 ∧ statuses (k + j) ≠ 6 := by
  intro n
  induction n with
  | zero => intro k; simp [waitLoop]
  | succ n ih =>
    intro k
    by_cases h5 : statuses k = 5
    · simp only [waitLoop, if_pos h5]
      constructor
      · intro hw; exact absurd hw (by simp)
      · intro hr; exact absurd h5 (by simpa using (hr 0 (Nat.succ_pos n)).1)
    · by_cases h46 : statuses k = 4 ∨ statuses k = 6
      · simp only [waitLoop, if_neg h5, if_pos h46]
        constructor
        · intro hw; exact MonitorOutcome.noConfusion hw
        · intro hr
          rcases h46 with h4 | h6
          · exact absurd h4 (by simpa using (hr 0 (Nat.succ_pos n)).2.1)
          · exact absurd h6 (by simpa using (hr 0 (Nat.succ_pos n)).2.2)
      · push_neg at h46
        simp only [waitLoop, if_neg h5, if_neg (by simp [h46.1, h46.2] : ¬(statuses k = 4 ∨ statuses k = 6))]
        rw [ih (k + 1)]
        constructor
        · intro hr j hj
          cases j with
          | zero => simpa using ⟨h5, h46.1, h46.2⟩
          | succ j =>
            have e : k + (j + 1) = (k + 1) + j := by omega
            rw [e]
            exact hr j (by omega)
        · intro hr j hj
          have e : (k + 1) + j = k + (j + 1) := by omega
          rw [e]
          exact hr (j + 1) (by omega)

theorem waitLoop_failed_exists (statuses : Nat → Nat) :
    ∀ (n k s : Nat), waitLoop statuses n k = MonitorOutcome.failed s →
      ∃ j, j < n ∧ statuses (k + j) = s ∧ (s = 4 ∨ s = 6) := by
  intro n
  induction n with
  | zero => intro k s hw; exact absurd hw (by simp [waitLoop])
  | succ n ih =>
    intro k s hw
    by_cases h5 : statuses k = 5
    · simp only [waitLoop, if_pos h5] at hw
      exact MonitorOutcome.noConfusion hw
    · by_cases h46 : statuses k = 4 ∨ statuses k = 6
      · simp only [waitLoop, if_neg h5, if_pos h46] at hw
        have hs : statuses k = s := by
          cases hw
          rfl
        exact ⟨0, Nat.succ_pos n, by simpa using hs, hs ▸ h46⟩
      · simp only [waitLoop, if_neg h5, if_neg h46] at hw
        obtain ⟨j, hj, hst, hterm⟩ := ih (k + 1) s hw
        have e : (k + 1) + j = k + (j + 1) := by omega
        exact ⟨j + 1, by omega, by rw [← e]; exact hst, hterm⟩

theorem waitLoop_success_exists (statuses : Nat → Nat) :
    ∀ (n k : Nat), waitLoop statuses n k = MonitorOutcome.success →
      ∃ j, j < n ∧ statuses (k + j) = 5 := by
  intro n
  induction n with
  | zero => intro k hw; exact absurd hw (by simp [waitLoop])
  | succ n ih =>
    intro k hw
    by_cases h5 : statuses k = 5
    · exact ⟨0, Nat.succ_pos n, by simpa using h5⟩
    · by_cases h46 : statuses k = 4 ∨ statuses k = 6
      · simp only [waitLoop, if_neg h5, if_pos h46] at hw
        exact MonitorOutcome.noConfusion hw
      · simp only [waitLoop, if_neg h5, if_neg h46] at hw
        obtain ⟨j, hj, hst⟩ := ih (k + 1) hw
        have e : (k + 1) + j = k + (j + 1) := by omega
        exact ⟨j + 1, by omega, by rw [← e]; exact hst⟩

/-- C9: the job monitor returns after a terminal status (success /
failed / cancelled) or after the timeout elapses — a success or failure
outcome always stems from a terminal status observed at a poll within
the timeout window, and the timed-out outcome occurs exactly when no
poll within the window saw a terminal status.  The timed-out exit is a
distinct outcome from the explicit-failure exit (it asserts no failed
status was seen), although the boolean the function returns is False for
both.  With the default timeout of 300 seconds at a 10-second poll
interval, at most 30 polls happen. -/
theorem c9_job_monitor (statuses : Nat → Nat) (timeout : Nat) :
    (waitForJobCompletion statuses timeout = MonitorOutcome.timedOut ↔
      ∀ k, 10 * k < timeout → statuses k ≠ 5 ∧ statuses k ≠ 4 ∧ statuses k ≠ 6) ∧
    (∀ s, waitForJobCompletion statuses timeout = MonitorOutcome.failed s →
      ∃ k, 10 * k < timeout ∧ statuses k = s ∧ (s = 4 ∨ s = 6)) ∧
    (waitForJobCompletion statuses timeout = MonitorOutcome.success →
      ∃ k, 10 * k < timeout ∧ statuses k = 5) ∧
    (∀ s, MonitorOutcome.timedOut ≠ MonitorOutcome.failed s) ∧
    (∀ s, monitorBool (MonitorOutcome.failed s) = monitorBool MonitorOutcome.timedOut) ∧
    (waitForJobCompletion statuses 300 = waitLoop statuses 30 0) := by
  have harith : ∀ k : Nat, 10 * k < timeout ↔ k < (timeout + 9) / 10 := by
    intro k; omega
  refine ⟨?_, ?_, ?_, fun s => MonitorOutcome.noConfusion, fun s => rfl, by norm_num [waitForJobCompletion]⟩
  · rw [waitForJobCompletion, waitLoop_timedOut_iff]
    constructor
    · intro h k hk
      simpa using h k ((harith k).mp hk)
    · intro h j hj
      simpa using h j ((harith j).mpr hj)
  · intro s hw
    obtain ⟨j, hj, hst, hterm⟩ := waitLoop_failed_exists statuses _ 0 s hw
    exact ⟨j, (harith j).mpr hj, by simpa using hst, hterm⟩
  · intro hw
    obtain ⟨j, hj, hst⟩ := waitLoop_success_exists statuses _ 0 hw
    exact ⟨j, (harith j).mpr hj, by simpa using hst⟩

/-! # Claim C4 — retry policy -/

/-- In the primary retry loop every attempt strictly before the last one
ended in the concurrent-modification error: retries happen only on that
error class. -/
theorem mainBatchGo_retries_concurrent (env : Nat → MainCallResult) :
    ∀ (fuel a k : Nat), a ≤ k → k + 1 < (mainBatchGo env fuel a).2 →
      env k = MainCallResult.concurrentErr := by
  intro fuel
  induction fuel with
  | zero =>
    intro a k hak h
    simp only [mainBatchGo] at h
    omega
  | succ fuel ih =>
    intro a k hak h
    cases henv : env a with
    | ok =>
      simp only [mainBatchGo, henv] at h
      omega
    | otherErr =>
      simp only [mainBatchGo, henv] at h
      omega
    | concurrentErr =>
      by_cases hka : k = a
      · exact hka ▸ henv
      · simp only [mainBatchGo, henv] at h
        exact ih (a + 1) k (by omega) h

/-- In the attached retry helper every attempt strictly before the last
one ended in the concurrent-modification error or in an unexpected
non-API exception. -/
theorem asstBatchGo_retries_transient_or_unexpected (env : Nat → AsstCallResult)
    (m : Nat) :
    ∀ (fuel a k : Nat), a ≤ k → k + 1 < (asstBatchGo env m fuel a).2 →
      env k = AsstCallResult.gadsConcurrent ∨ env k = AsstCallResult.unexpected := by
  intro fuel
  induction fuel with
  | zero =>
    intro a k hak h
    simp only [asstBatchGo] at h
    omega
  | succ fuel ih =>
    intro a k hak h
    cases henv : env a with
    | ok =>
      simp only [asstBatchGo, henv] at h
      omega
    | gadsOther =>
      simp only [asstBatchGo, henv] at h
      omega
    | gadsConcurrent =>
      by_cases hka : k = a
      · exact Or.inl (hka ▸ henv)
      · simp only [asstBatchGo, henv] at h
        by_cases ham : a < m
        · rw [if_pos ham] at h
          exact ih (a + 1) k (by omega) h
        · rw [if_neg ham] at h
          omega
    | unexpected =>
      by_cases hka : k = a
      · exact Or.inr (hka ▸ henv)
      · simp only [asstBatchGo, henv] at h
        by_cases ham : a < m
        · rw [if_pos ham] at h
          exact ih (a + 1) k (by omega) h
        · rw [if_neg ham] at h
          omega

/-- C4 (amended): a non-transient recognized API error on a batch yields
exactly one submission attempt in BOTH implementations, after which the
batch is marked failed; in the primary implementation a retry happens
only after a concurrent-modification error; in the attached variant a
retry happens only after a concurrent-modification error OR an
unexpected non-API exception — the latter class is also retried there,
contrary to the claim (see the counterexample). -/
theorem c4_retry_policy (env : Nat → MainCallResult) (env2 : Nat → AsstCallResult)
    (rc m : Nat) (h1 : 0 < rc) (h2 : env 0 = MainCallResult.otherErr)
    (h3 : env2 0 = AsstCallResult.gadsOther) :
    mainBatchResult env rc = (false, 1) ∧
    asstBatchResult env2 m = (false, 1) ∧
    (∀ (e : Nat → MainCallResult) (n k : Nat),
      k + 1 < (mainBatchResult e n).2 → e k = MainCallResult.concurrentErr) ∧
    (∀ (e : Nat → AsstCallResult) (mm k : Nat),
      k + 1 < (asstBatchResult e mm).2 →
        e k = AsstCallResult.gadsConcurrent ∨ e k = AsstCallResult.unexpected) := by
  refine ⟨?_, ?_, ?_, ?_⟩
  · cases rc with
    | zero => omega
    | succ rc' => simp [mainBatchResult, mainBatchGo, h2]
  · simp [asstBatchResult, asstBatchGo, h3]
  · intro e n k h
    exact mainBatchGo_retries_concurrent e n 0 k (Nat.zero_le k) h
  · intro e mm k h
    exact asstBatchGo_retries_transient_or_unexpected e mm (mm + 1) 0 k (Nat.zero_le k) h

/-- C4 witness: a batch whose first submission raises a non-transient API
error is attempted exactly once under both retry loops (default
API_RETRY_COUNT = 3). -/
theorem c4_retry_policy_witness :
    mainBatchResult (fun _ => MainCallResult.otherErr) 3 = (false, 1) ∧
    asstBatchResult (fun _ => AsstCallResult.gadsOther) 3 = (false, 1) ∧
    (∀ (e : Nat → MainCallResult) (n k : Nat),
      k + 1 < (mainBatchResult e n).2 → e k = MainCallResult.concurrentErr) ∧
    (∀ (e : Nat → AsstCallResult) (mm k : Nat),
      k + 1 < (asstBatchResult e mm).2 →
        e k = AsstCallResult.gadsConcurrent ∨ e k = AsstCallResult.unexpected) :=
  c4_retry_policy (fun _ => MainCallResult.otherErr) (fun _ => AsstCallResult.gadsOther)
    3 3 (by norm_num) rfl rfl

/-- C4 counterexample: in the attached variant an unexpected non-API
exception on every attempt leads to 4 submission attempts (1 + 3
retries) with API_RETRY_COUNT = 3 — not the single attempt the claim
requires for a non-transient error. -/
theorem c4_counterexample :
    asstBatchResult (fun _ => AsstCallResult.unexpected) 3 = (false, 4) ∧
    asstBatchResult (fun _ => AsstCallResult.unexpected) 3 ≠ (false, 1) := by
  refine ⟨by decide, by decide⟩

/-! # Claim C3 — overall run success criterion -/

/-- 0 < success count iff some batch index below n succeeds. -/
theorem successCount_pos_iff (p : Nat → Bool) (n : Nat) :
    0 < ((List.range n).filter p).length ↔ ∃ b, b < n ∧ p b = true := by
  rw [List.length_pos]
  constructor
  · intro h
    obtain ⟨x, hx⟩ := List.exists_mem_of_ne_nil _ h
    have := List.mem_filter.mp hx
    exact ⟨x, List.mem_range.mp this.1, this.2⟩
  · rintro ⟨b, hb, hp⟩
    intro hnil
    have : b ∈ (List.range n).filter p :=
      List.mem_filter.mpr ⟨List.mem_range.mpr hb, hp⟩
    rw [hnil] at this
    exact List.not_mem_nil b this

/-- C3 (amended): in the attached variant the run result is success iff
job creation succeeded, the job-run call succeeded AND at least one
batch uploaded successfully — zero successful batches on a non-empty
record list is a failed run even when the run call did not error.  The
primary implementation instead reports success exactly when job creation
and the run call succeed, regardless of batch successes (see the
counterexample). -/
theorem c3_run_success_criterion (env : AsstEnv) (size m : Nat)
    (ops : List (List UserIdentifier)) (menv : MainEnv) (ops2 : List Operation)
    (h : ops ≠ []) (h2 : ops2 ≠ []) :
    (asstUploadResult env size m ops = true ↔
      env.createJobOk = true ∧ env.runJobOk = true ∧
        ∃ b, b < (mkBatches size ops).length ∧ asstBatchSucceeds env m b = true) ∧
    (mainUploadResult menv ops2 = true ↔
      menv.createJobOk = true ∧ menv.runJobOk = true) := by
  constructor
  · have he : ops.isEmpty = false := by
      cases ops with
      | nil => exact absurd rfl h
      | cons x xs => rfl
    rw [asstUploadResult, he]
    cases hc : env.createJobOk
    · simp
    · cases hr : env.runJobOk
      · simp
      · simp only [Bool.not_true, if_false, Bool.false_eq_true, ite_false,
          decide_eq_true_eq, true_and]
        rw [asstSuccessCount, successCount_pos_iff]
  · have he : ops2.isEmpty = false := by
      cases ops2 with
      | nil => exact absurd rfl h2
      | cons x xs => rfl
    rw [mainUploadResult, he]
    cases hc : menv.createJobOk
    · simp
    · cases hr : menv.runJobOk
      · simp
      · simp

/-- One concrete prepared operation, used by the run-level scenarios. -/
def sampleOperation : Operation :=
  ⟨[UserIdentifier.email "e"], none, "guid", "unspecified"⟩

/-- C3 witness: a run of one batch that uploads successfully, with job
creation and the run call succeeding, is a successful run under both
implementations. -/
theorem c3_run_success_criterion_witness :
    (asstUploadResult ⟨true, fun _ _ => AsstCallResult.ok, true⟩ 2 3
        [[UserIdentifier.email "e"]] = true ↔
      (⟨true, fun _ _ => AsstCallResult.ok, true⟩ : AsstEnv).createJobOk = true ∧
      (⟨true, fun _ _ => AsstCallResult.ok, true⟩ : AsstEnv).runJobOk = true ∧
        ∃ b, b < (mkBatches 2 [[UserIdentifier.email "e"]]).length ∧
          asstBatchSucceeds ⟨true, fun _ _ => AsstCallResult.ok, true⟩ 3 b = true) ∧
    (mainUploadResult ⟨true, fun _ _ => MainCallResult.ok, true⟩ [sampleOperation] = true ↔
      (⟨true, fun _ _ => MainCallResult.ok, true⟩ : MainEnv).createJobOk = true ∧
      (⟨true, fun _ _ => MainCallResult.ok, true⟩ : MainEnv).runJobOk = true) :=
  c3_run_success_criterion ⟨true, fun _ _ => AsstCallResult.ok, true⟩ 2 3
    [[UserIdentifier.email "e"]] ⟨true, fun _ _ => MainCallResult.ok, true⟩
    [sampleOperation] (by simp) (by simp)

/-- C3 counterexample: under the primary implementation a run over a
non-empty record list whose every batch submission fails terminally
still reports overall success (job creation and the run call succeed,
zero batches succeed) — the claim is false for this run. -/
theorem c3_counterexample :
    mainUploadResult ⟨true, fun _ _ => MainCallResult.otherErr, true⟩ [sampleOperation]
        = true ∧
    mainSuccessCount ⟨true, fun _ _ => MainCallResult.otherErr, true⟩ 3
        ((mkBatches 2500 [sampleOperation]).length) = 0 ∧
    [sampleOperation] ≠ ([] : List Operation) := by
  have hlen : (mkBatches 2500 [sampleOperation]).length = 1 := by
    rw [mkBatches_cons (by norm_num) (by simp)]
    rw [show List.drop 2500 [sampleOperation] = [] from by simp]
    rw [mkBatches_nil]
    simp
  refine ⟨rfl, ?_, by simp⟩
  rw [hlen]
  decide

/-! # Claim C10 — counter / operations lockstep (primary implementation) -/

/-- Each row either bumps rows_with_any_id_count by one AND appends
exactly its one operation (whose identifier list is then non-empty), or
leaves both the counter and the operation list unchanged. -/
theorem processRowMain_dichotomy {P : Type} (parse : String → Option String → Option P)
    (isValid : P → Bool) (fmtE164 : P → String) (sha : String → String)
    (bf : Option String) (st : MainState) (r : Row) :
    ((rowOperation parse isValid fmtE164 sha r).userIdentifiers ≠ [] ∧
      (processRowMain parse isValid fmtE164 sha bf st r).rowsWithAnyIdCount
        = st.rowsWithAnyIdCount + 1 ∧
      (processRowMain parse isValid fmtE164 sha bf st r).processedOperations
        = st.processedOperations ++ [rowOperation parse isValid fmtE164 sha r]) ∨
    ((processRowMain parse isValid fmtE164 sha bf st r).rowsWithAnyIdCount
        = st.rowsWithAnyIdCount ∧
      (processRowMain parse isValid fmtE164 sha bf st r).processedOperations
        = st.processedOperations) := by
  rw [processRowMain]
  by_cases hb : brandSkip bf (rowBrandRaw r) = true
  · right
    rw [if_pos hb]
    exact ⟨rfl, rfl⟩
  · rw [if_neg hb]
    by_cases hid : (rowOperation parse isValid fmtE164 sha r).userIdentifiers = []
    · right
      rw [appendOperation, if_pos hid]
      exact ⟨rfl, rfl⟩
    · left
      rw [appendOperation, if_neg hid]
      exact ⟨hid, rfl, rfl⟩

/-- The lockstep invariant is preserved along any row sequence. -/
theorem processRowsMain_count_inv {P : Type} (parse : String → Option String → Option P)
    (isValid : P → Bool) (fmtE164 : P → String) (sha : String → String)
    (bf : Option String) :
    ∀ (rows : List Row) (st : MainState),
      st.rowsWithAnyIdCount = st.processedOperations.length →
      (processRowsMain parse isValid fmtE164 sha bf st rows).rowsWithAnyIdCount
        = (processRowsMain parse isValid fmtE164 sha bf st rows).processedOperations.length := by
  intro rows
  induction rows with
  | nil => intro st h; exact h
  | cons r rs ih =>
    intro st h
    rw [processRowsMain]
    apply ih
    rcases processRowMain_dichotomy parse isValid fmtE164 sha bf
        { st with totalRowsProcessed := st.totalRowsProcessed + 1 } r with
      ⟨_, ha, hb⟩ | ⟨ha, hb⟩
    · rw [ha, hb]
      simp only [List.length_append, List.length_cons, List.length_nil]
      omega
    · rw [ha, hb]
      exact h

/-- The attached _create_google_ads_operation obeys the same dichotomy:
either both the counter and the operation list grow together (by one
non-empty identifier list) or neither changes. -/
theorem asstCreateOperation_dichotomy (st : AsstState)
    (he hp hf hl cc pc : Option String) (skip : Bool) :
    ((asstCreateOperation st he hp hf hl cc pc skip).rowsWithAnyIdCount
        = st.rowsWithAnyIdCount + 1 ∧
      ∃ ids, ids ≠ [] ∧
        (asstCreateOperation st he hp hf hl cc pc skip).ops = st.ops ++ [ids]) ∨
    ((asstCreateOperation st he hp hf hl cc pc skip).rowsWithAnyIdCount
        = st.rowsWithAnyIdCount ∧
      (asstCreateOperation st he hp hf hl cc pc skip).ops = st.ops) := by
  rw [asstCreateOperation]
  by_cases hid : optionToIds UserIdentifier.email he ++ optionToIds UserIdentifier.phone hp
      ++ asstAddressComponent hf hl cc pc skip = []
  · right
    simp only [hid, if_pos]
    exact ⟨trivial, trivial⟩
  · left
    simp only [hid, if_neg, ite_false]
    exact ⟨trivial, _, hid, rfl⟩

/-- C10: starting from the freshly initialised state, after processing
any sequence of rows the counter of rows with at least one identifier
equals the length of the accumulated operation list; and per row, both
either grow together (counter +1, exactly one operation appended) or
stay unchanged — in the primary implementation and in the attached
variant's operation builder. -/
theorem c10_count_matches_operations {P : Type} (parse : String → Option String → Option P)
    (isValid : P → Bool) (fmtE164 : P → String) (sha : String → String)
    (bf : Option String) (rows : List Row) :
    ((processRowsMain parse isValid fmtE164 sha bf initMain rows).rowsWithAnyIdCount
      = (processRowsMain parse isValid fmtE164 sha bf initMain rows).processedOperations.length) ∧
    (∀ (st : MainState) (r : Row),
      ((processRowMain parse isValid fmtE164 sha bf st r).rowsWithAnyIdCount
          = st.rowsWithAnyIdCount + 1 ∧
        (processRowMain parse isValid fmtE164 sha bf st r).processedOperations
          = st.processedOperations ++ [rowOperation parse isValid fmtE164 sha r]) ∨
      ((processRowMain parse isValid fmtE164 sha bf st r).rowsWithAnyIdCount
          = st.rowsWithAnyIdCount ∧
        (processRowMain parse isValid fmtE164 sha bf st r).processedOperations
          = st.processedOperations)) ∧
    (∀ (st : AsstState) (he hp hf hl cc pc : Option String) (skip : Bool),
      ((asstCreateOperation st he hp hf hl cc pc skip).rowsWithAnyIdCount
          = st.rowsWithAnyIdCount + 1 ∧
        ∃ ids, ids ≠ [] ∧
          (asstCreateOperation st he hp hf hl cc pc skip).ops = st.ops ++ [ids]) ∨
      ((asstCreateOperation st he hp hf hl cc pc skip).rowsWithAnyIdCount
          = st.rowsWithAnyIdCount ∧
        (asstCreateOperation st he hp hf hl cc pc skip).ops = st.ops)) := by
  refine ⟨processRowsMain_count_inv parse isValid fmtE164 sha bf rows initMain rfl, ?_, ?_⟩
  · intro st r
    rcases processRowMain_dichotomy parse isValid fmtE164 sha bf st r with
      ⟨_, ha, hb⟩ | ⟨ha, hb⟩
    · exact Or.inl ⟨ha, hb⟩
    · exact Or.inr ⟨ha, hb⟩
  · intro st he hp hf hl cc pc skip
    exact asstCreateOperation_dichotomy st he hp hf hl cc pc skip

/-! # Claim C1 — no empty-identifier record is uploaded -/

/-- Along any row sequence the primary implementation only ever appends
operations whose identifier list is non-empty. -/
theorem processRowsMain_all_nonempty {P : Type} (parse : String → Option String → Option P)
    (isValid : P → Bool) (fmtE164 : P → String) (sha : String → String)
    (bf : Option String) :
    ∀ (rows : List Row) (st : MainState),
      (∀ op ∈ st.processedOperations, op.userIdentifiers ≠ []) →
      ∀ op ∈ (processRowsMain parse isValid fmtE164 sha bf st rows).processedOperations,
        op.userIdentifiers ≠ [] := by
  intro rows
  induction rows with
  | nil => intro st h; exact h
  | cons r rs ih =>
    intro st h
    rw [processRowsMain]
    apply ih
    rcases processRowMain_dichotomy parse isValid fmtE164 sha bf
        { st with totalRowsProcessed := st.totalRowsProcessed + 1 } r with
      ⟨hne, _, hb⟩ | ⟨_, hb⟩
    · rw [hb]
      intro op hop
      rcases List.mem_append.mp hop with hop | hop
      · exact h op hop
      · rw [List.mem_singleton.mp hop]
        exact hne
    · rw [hb]
      exact h

/-- Along any row sequence the attached variant only ever appends
non-empty identifier lists. -/
theorem asstProcessRows_all_nonempty {P : Type} (parse : String → Option String → Option P)
    (isValid : P → Bool) (fmtE164 : P → String) (sha : String → String) :
    ∀ (rows : List Row) (st : AsstState),
      (∀ ids ∈ st.ops, ids ≠ []) →
      ∀ ids ∈ (asstProcessRows parse isValid fmtE164 sha st rows).ops, ids ≠ [] := by
  intro rows
  induction rows with
  | nil => intro st h; exact h
  | cons r rs ih =>
    intro st h
    rw [asstProcessRows]
    apply ih
    rw [asstProcessRow]
    rcases asstCreateOperation_dichotomy _ _ _ _ _ _ _ _ with
      ⟨_, ids0, hne, hb⟩ | ⟨_, hb⟩
    · rw [hb]
      intro ids hids
      rcases List.mem_append.mp hids with hids | hids
      · exact h ids hids
      · rw [List.mem_singleton.mp hids]
        exact hne
    · rw [hb]
      exact h

/-- C1 (amended): in both Workspace implementations a record with an
empty identifier list is never appended to the operation list, so every
record in every uploaded batch has at least one identifier.  The
standalone CSV uploader violates this (see the counterexample). -/
theorem c1_no_empty_identifier_records {P : Type} (parse : String → Option String → Option P)
    (isValid : P → Bool) (fmtE164 : P → String) (sha : String → String)
    (bf : Option String) (rows : List Row) (size : Nat) :
    ((processRowsMain parse isValid fmtE164 sha bf initMain rows).processedOperations.all
        (fun op => !op.userIdentifiers.isEmpty) = true) ∧
    ((mkBatches size
        (processRowsMain parse isValid fmtE164 sha bf initMain rows).processedOperations).all
        (fun b => b.all (fun op => !op.userIdentifiers.isEmpty)) = true) ∧
    ((asstProcessRows parse isValid fmtE164 sha initAsst rows).ops.all
        (fun ids => !ids.isEmpty) = true) := by
  have hmain := processRowsMain_all_nonempty parse isValid fmtE164 sha bf rows initMain
    (by intro op hop; exact absurd hop (List.not_mem_nil op))
  have hasst := asstProcessRows_all_nonempty parse isValid fmtE164 sha rows initAsst
    (by intro ids hids; exact absurd hids (List.not_mem_nil ids))
  refine ⟨?_, ?_, ?_⟩
  · rw [List.all_eq_true]
    intro op hop
    simpa [List.isEmpty_iff] using hmain op hop
  · rw [List.all_eq_true]
    intro b hb
    rw [List.all_eq_true]
    intro op hop
    have : op ∈ (processRowsMain parse isValid fmtE164 sha bf initMain rows).processedOperations :=
      mkBatches_mem_mem size _ b hb op hop
    simpa [List.isEmpty_iff] using hmain op this
  · rw [List.all_eq_true]
    intro ids hids
    simpa [List.isEmpty_iff] using hasst ids hids

/-- A CSV customer whose every field is blank. -/
def emptyCustomer : Customer := {}

/-- C1 counterexample: the standalone CSV uploader
(create_user_data_operations) appends an operation with an EMPTY
identifier list for a customer whose fields are all blank — a record
with zero identifiers is present in the uploaded operation list. -/
theorem c1_counterexample :
    createUserDataOperations (fun s => s) [emptyCustomer] = [[]] ∧
    (createUserDataOperations (fun s => s) [emptyCustomer]).any
        (fun ids => ids.isEmpty) = true := by
  refine ⟨rfl, rfl⟩

/-! # Claim C6 — email normalization -/

/-- C6 (amended): the primary email path trims and lowercases, and
produces the hashed identifier exactly when the raw (already stripped)
value contains an at-sign and a dot ANYWHERE — the dot need not be in
the domain portion — and the normalized result is at least 6 characters
with exactly one at-sign; otherwise the identifier is absent and not
hashed. -/
theorem c6_email_normalizer (sha : String → String) (s : String) :
    (processEmailMain sha none = none) ∧
    ((∃ h, processEmailMain sha (some s) = some h) ↔
      (s ≠ "" ∧ hasChar s '@' = true ∧ hasChar s '.' = true ∧
        6 ≤ strLen (pyStrip (pyLower s)) ∧ countChar (pyStrip (pyLower s)) '@' = 1)) ∧
    (∀ h, processEmailMain sha (some s) = some h → h = sha (pyStrip (pyLower s))) := by
  refine ⟨rfl, ?_, ?_⟩
  · simp only [processEmailMain]
    split_ifs with h1 h2
    · constructor
      · intro _
        exact ⟨h1.1, h1.2.1, h1.2.2, h2.1, h2.2⟩
      · intro _
        exact ⟨sha (pyStrip (pyLower s)), rfl⟩
    · constructor
      · rintro ⟨h, hh⟩
        exact absurd hh (by simp)
      · intro hr
        exact absurd ⟨hr.2.2.2.1, hr.2.2.2.2⟩ h2
    · constructor
      · rintro ⟨h, hh⟩
        exact absurd hh (by simp)
      · intro hr
        exact absurd ⟨hr.1, hr.2.1, hr.2.2.1⟩ h1
  · intro h hh
    simp only [processEmailMain] at hh
    split_ifs at hh
    exact (Option.some_inj.mp hh).symm

/-- C6 counterexample: the raw email "x.y@zw" has its only dot BEFORE
the at-sign (the domain portion "zw" has no dot), yet the primary
implementation hashes it — so "hashed exactly when … a '.' is in the
domain portion" is false at this input. -/
theorem c6_counterexample :
    processEmailMain (fun s => s) (some "x.y@zw") = some "x.y@zw" ∧
    hasChar (afterLastChar '@' "x.y@zw") '.' = false ∧
    6 ≤ strLen (pyStrip (pyLower "x.y@zw")) ∧
    countChar (pyStrip (pyLower "x.y@zw")) '@' = 1 := by
  refine ⟨by decide, by decide, by decide, by decide⟩

/-! # Claim C2 — address identifiers are all-or-nothing -/

theorem email_not_mem_addressComponent (nr : NameResult) (zr : ZipResult) (h : String) :
    UserIdentifier.email h ∉ addressComponentMain nr zr := by
  rw [addressComponentMain]
  split <;> simp

theorem phone_not_mem_addressComponent (nr : NameResult) (zr : ZipResult) (h : String) :
    UserIdentifier.phone h ∉ addressComponentMain nr zr := by
  rw [addressComponentMain]
  split <;> simp

/-- An address identifier occurs in the built list only with the exact
components the name and zip blocks produced, and only when
skip_name_for_address is false. -/
theorem addressComponentMain_sound (nr : NameResult) (zr : ZipResult)
    {hf hl cc pc : String}
    (hmem : UserIdentifier.address hf hl cc pc ∈ addressComponentMain nr zr) :
    zr.countryCode = some cc ∧ zr.postalCode = some pc ∧
      nr.hashedFirst = some hf ∧ nr.hashedLast = some hl ∧
      nr.skipNameForAddress = false := by
  rw [addressComponentMain] at hmem
  split at hmem
  · rw [List.mem_singleton] at hmem
    cases hmem
    refine ⟨?_, ?_, ?_, ?_, ?_⟩ <;> assumption
  · exact absurd hmem (List.not_mem_nil _)

theorem mem_build_email_iff (he hp : Option String) (nr : NameResult) (zr : ZipResult)
    (h : String) :
    UserIdentifier.email h ∈ buildIdentifiersMain he hp nr zr ↔ he = some h := by
  rw [buildIdentifiersMain]
  simp only [List.mem_append]
  constructor
  · rintro ((h1 | h1) | h1)
    · cases he with
      | none => exact absurd h1 (by simp [optionToIds])
      | some x =>
        simp only [optionToIds, List.mem_singleton, UserIdentifier.email.injEq] at h1
        rw [h1]
    · cases hp with
      | none => exact absurd h1 (by simp [optionToIds])
      | some x => exact absurd h1 (by simp [optionToIds])
    · exact absurd h1 (email_not_mem_addressComponent nr zr h)
  · intro hhe
    exact Or.inl (Or.inl (by rw [hhe]; simp [optionToIds]))

theorem mem_build_phone_iff (he hp : Option String) (nr : NameResult) (zr : ZipResult)
    (h : String) :
    UserIdentifier.phone h ∈ buildIdentifiersMain he hp nr zr ↔ hp = some h := by
  rw [buildIdentifiersMain]
  simp only [List.mem_append]
  constructor
  · rintro ((h1 | h1) | h1)
    · cases he with
      | none => exact absurd h1 (by simp [optionToIds])
      | some x => exact absurd h1 (by simp [optionToIds])
    · cases hp with
      | none => exact absurd h1 (by simp [optionToIds])
      | some x =>
        simp only [optionToIds, List.mem_singleton, UserIdentifier.phone.injEq] at h1
        rw [h1]
    · exact absurd h1 (phone_not_mem_addressComponent nr zr h)
  · intro hhp
    exact Or.inl (Or.inr (by rw [hhp]; simp [optionToIds]))

theorem mem_build_address (he hp : Option String) (nr : NameResult) (zr : ZipResult)
    {hf hl cc pc : String}
    (hmem : UserIdentifier.address hf hl cc pc ∈ buildIdentifiersMain he hp nr zr) :
    UserIdentifier.address hf hl cc pc ∈ addressComponentMain nr zr := by
  rw [buildIdentifiersMain] at hmem
  simp only [List.mem_append] at hmem
  rcases hmem with (h1 | h1) | h1
  · cases he with
    | none => exact absurd h1 (by simp [optionToIds])
    | some x => exact absurd h1 (by simp [optionToIds])
  · cases hp with
    | none => exact absurd h1 (by simp [optionToIds])
    | some x => exact absurd h1 (by simp [optionToIds])
  · exact h1

/-- The name block's full case analysis: either both names are valid and
the block's result is completely determined, or no hash is produced and
has_valid_name is false. -/
theorem processNamesMain_cases (sha : String → String) (fo lo : Option String) :
    (∃ f l, fo = some f ∧ lo = some l ∧ f ≠ "" ∧ l ≠ "" ∧
      (¬ problemChars.any
        (fun c => ((pyStrip (pyLower f)).data ++ (pyStrip (pyLower l)).data).contains c)) ∧
      2 ≤ strLen (pyStrip (pyLower f)) ∧ 2 ≤ strLen (pyStrip (pyLower l)) ∧
      processNamesMain sha fo lo
        = ⟨some (sha (pyStrip (pyLower f))), some (sha (pyStrip (pyLower l))),
            true, false⟩) ∨
    ((processNamesMain sha fo lo).hashedFirst = none ∧
      (processNamesMain sha fo lo).hashedLast = none ∧
      (processNamesMain sha fo lo).hasValidName = false) := by
  cases fo with
  | none => right; exact ⟨rfl, rfl, rfl⟩
  | some f =>
    cases lo with
    | none => right; exact ⟨rfl, rfl, rfl⟩
    | some l =>
      simp only [processNamesMain]
      split_ifs with h1 h2
      · left
        exact ⟨f, l, rfl, rfl, h1.1, h1.2, h2.1, h2.2.1, h2.2.2, rfl⟩
      · right; exact ⟨rfl, rfl, rfl⟩
      · right; exact ⟨rfl, rfl, rfl⟩

/-- The zip block's postal output is always the first five digits of a
truthy raw zip of length at least 5, and its country output is always
"US". -/
theorem processZipMain_sound (zo : Option String) (hv sk : Bool) :
    (∀ c, (processZipMain zo hv sk).countryCode = some c → c = "US") ∧
    (∀ p, (processZipMain zo hv sk).postalCode = some p →
      ∃ z, zo = some z ∧ z ≠ "" ∧ 5 ≤ strLen z ∧
        p = String.mk ((z.data.filter Char.isDigit).take 5) ∧ strLen p = 5) := by
  cases zo with
  | none =>
    refine ⟨fun c hc => ?_, fun p hp => ?_⟩
    · exact absurd hc (by simp [processZipMain])
    · exact absurd hp (by simp [processZipMain])
  | some z =>
    simp only [processZipMain]
    split_ifs with h1 h2 h3
    · refine ⟨fun c hc => (Option.some_inj.mp hc).symm, fun p hp => ?_⟩
      have hpe : p = String.mk ((z.data.filter Char.isDigit).take 5) :=
        (Option.some_inj.mp hp).symm
      exact ⟨z, rfl, h1.1, h1.2, hpe, hpe ▸ h2⟩
    · refine ⟨fun c hc => (Option.some_inj.mp hc).symm, fun p hp => ?_⟩
      have hpe : p = String.mk ((z.data.filter Char.isDigit).take 5) :=
        (Option.some_inj.mp hp).symm
      exact ⟨z, rfl, h1.1, h1.2, hpe, hpe ▸ h2⟩
    · exact ⟨fun c hc => (Option.some_inj.mp hc).symm, fun p hp => absurd hp (by simp)⟩
    · exact ⟨fun c hc => absurd hc (by simp), fun p hp => absurd hp (by simp)⟩

/-- C2 (amended): in the primary implementation an address identifier is
emitted only when the name block validated both names (truthy, no
blacklisted character, normalized length at least 2 each — so neither
name was rejected) and the zip block produced both the country code
(always "US") and a five-digit postal code; a valid email or phone
identifier on the same row is emitted independently of the other fields
(its presence is exactly the success of its own block).  The standalone
CSV uploader instead emits partial address identifiers (see the
counterexample). -/
theorem c2_address_all_or_nothing {P : Type} (parse : String → Option String → Option P)
    (isValid : P → Bool) (fmtE164 : P → String) (sha : String → String) (r : Row) :
    (∀ hf hl cc pc,
      UserIdentifier.address hf hl cc pc ∈ rowIdentifiersMain parse isValid fmtE164 sha r →
      (rowNames sha r).hashedFirst = some hf ∧ (rowNames sha r).hashedLast = some hl ∧
      (rowNames sha r).hasValidName = true ∧
      (rowNames sha r).skipNameForAddress = false ∧
      (rowZip sha r).countryCode = some cc ∧ (rowZip sha r).postalCode = some pc ∧
      cc = "US" ∧
      (∃ f l, extractField r.firstName = some f ∧ extractField r.lastName = some l ∧
        f ≠ "" ∧ l ≠ "" ∧
        (¬ problemChars.any
          (fun c => ((pyStrip (pyLower f)).data ++ (pyStrip (pyLower l)).data).contains c)) ∧
        2 ≤ strLen (pyStrip (pyLower f)) ∧ 2 ≤ strLen (pyStrip (pyLower l))) ∧
      (∃ z, extractField r.zipCode = some z ∧ z ≠ "" ∧ 5 ≤ strLen z ∧
        pc = String.mk ((z.data.filter Char.isDigit).take 5) ∧ strLen pc = 5)) ∧
    (∀ h, UserIdentifier.email h ∈ rowIdentifiersMain parse isValid fmtE164 sha r ↔
      rowEmail sha r = some h) ∧
    (∀ h, UserIdentifier.phone h ∈ rowIdentifiersMain parse isValid fmtE164 sha r ↔
      rowPhone parse isValid fmtE164 sha r = some h) := by
  refine ⟨?_, ?_, ?_⟩
  · intro hf hl cc pc hmem
    have haddr := mem_build_address _ _ _ _ (by rw [rowIdentifiersMain] at hmem; exact hmem)
    obtain ⟨hcc, hpc, hhf, hhl, hskip⟩ := addressComponentMain_sound _ _ haddr
    have hvalid : (rowNames sha r).hasValidName = true := by
      rcases processNamesMain_cases sha (extractField r.firstName) (extractField r.lastName)
        with ⟨f, l, _, _, _, _, _, _, _, heq⟩ | ⟨hn1, _, _⟩
      · rw [rowNames, heq]
      · rw [rowNames] at hhf
        rw [hn1] at hhf
        cases hhf
    have hnames : ∃ f l, extractField r.firstName = some f ∧ extractField r.lastName = some l ∧
        f ≠ "" ∧ l ≠ "" ∧
        (¬ problemChars.any
          (fun c => ((pyStrip (pyLower f)).data ++ (pyStrip (pyLower l)).data).contains c)) ∧
        2 ≤ strLen (pyStrip (pyLower f)) ∧ 2 ≤ strLen (pyStrip (pyLower l)) := by
      rcases processNamesMain_cases sha (extractField r.firstName) (extractField r.lastName)
        with ⟨f, l, he1, he2, hne1, hne2, hbl, hl1, hl2, _⟩ | ⟨hn1, _, _⟩
      · exact ⟨f, l, he1, he2, hne1, hne2, hbl, hl1, hl2⟩
      · rw [rowNames] at hhf
        rw [hn1] at hhf
        cases hhf
    obtain ⟨hcus, hpzs⟩ := processZipMain_sound (extractField r.zipCode)
      (rowNames sha r).hasValidName (rowNames sha r).skipNameForAddress
    have hzip : ∃ z, extractField r.zipCode = some z ∧ z ≠ "" ∧ 5 ≤ strLen z ∧
        pc = String.mk ((z.data.filter Char.isDigit).take 5) ∧ strLen pc = 5 := by
      have := hpzs pc (by rw [rowZip] at hpc; exact hpc)
      exact this
    exact ⟨hhf, hhl, hvalid, hskip, hcc, hpc,
      hcus cc (by rw [rowZip] at hcc; exact hcc), hnames, hzip⟩
  · intro h
    rw [rowIdentifiersMain]
    exact mem_build_email_iff _ _ _ _ h
  · intro h
    rw [rowIdentifiersMain]
    exact mem_build_phone_iff _ _ _ _ h

/-- C2 counterexample: the standalone CSV uploader, given a customer with
ONLY a zip code (no names, no country), emits an address identifier whose
name and country components are missing — a partial address identifier,
which the claim forbids. -/
theorem c2_counterexample :
    createUserDataOperations (fun s => s) [{ zip := some "98101" }] =
      [[CsvIdentifier.address ⟨none, none, none, some "98101"⟩]] ∧
    (⟨none, none, none, some "98101"⟩ : AddressInfo).hashedFirstName = none ∧
    (⟨none, none, none, some "98101"⟩ : AddressInfo).countryCode = none := by
  refine ⟨rfl, rfl, rfl⟩

/-! # Claim C7 — phone normalization and hashing -/

theorem appendOperation_emailCount (st : MainState) (op : Operation) :
    (appendOperation st op).emailProcessedCount = st.emailProcessedCount := by
  rw [appendOperation]
  split <;> rfl

theorem appendOperation_addressCount (st : MainState) (op : Operation) :
    (appendOperation st op).addressProcessedCount = st.addressProcessedCount := by
  rw [appendOperation]
  split <;> rfl

/-- C7 (amended): in the primary implementation, whenever a phone hash is
produced it is the sha256 of the E.164 formatting of a parsed number that
is telephony-valid and was obtained from the digit string of the raw
phone by the region-"US" parse with the documented "+"-prefixed fallback
(taken only when that first parse fails, the digit string starts with 1
and has more than 10 digits); an unparsable or invalid number yields no
identifier; and swapping the entire phone backend never changes the email
or address results of a row — phone failures are isolated.  The
standalone CSV uploader instead hashes the raw phone with no parsing or
validation (see the counterexample). -/
theorem c7_phone_pipeline {P : Type} (parse : String → Option String → Option P)
    (isValid : P → Bool) (fmtE164 : P → String) (sha : String → String)
    (s : String) (r : Row) (st : MainState) (bf : Option String) :
    (∀ h, processPhoneMain parse isValid fmtE164 sha (some s) = some h →
      ∃ p, parsePlanMain parse (digitsOnly s) = some p ∧ isValid p = true ∧
        h = sha (fmtE164 p)) ∧
    (∀ p, parsePlanMain parse (digitsOnly s) = some p →
      parse (digitsOnly s) (some "US") = some p ∨
        (parse (digitsOnly s) (some "US") = none ∧
          (digitsOnly s).data.head? = some '1' ∧ 10 < strLen (digitsOnly s) ∧
          parse ("+" ++ digitsOnly s) none = some p)) ∧
    (∀ p, parsePlanMain parse (digitsOnly s) = some p → isValid p = false →
      processPhoneMain parse isValid fmtE164 sha (some s) = none) ∧
    (parsePlanMain parse (digitsOnly s) = none →
      processPhoneMain parse isValid fmtE164 sha (some s) = none) ∧
    (∀ (parse2 : String → Option String → Option P) (isValid2 : P → Bool)
        (fmt2 : P → String),
      (processRowMain parse isValid fmtE164 sha bf st r).emailProcessedCount
          = (processRowMain parse2 isValid2 fmt2 sha bf st r).emailProcessedCount ∧
      (processRowMain parse isValid fmtE164 sha bf st r).addressProcessedCount
          = (processRowMain parse2 isValid2 fmt2 sha bf st r).addressProcessedCount) := by
  refine ⟨?_, ?_, ?_, ?_, ?_⟩
  · intro h hh
    simp only [processPhoneMain] at hh
    split_ifs at hh with h1 h2
    cases hp : parsePlanMain parse (digitsOnly s) with
    | none =>
      rw [hp] at hh
      have hh2 : (none : Option String) = some h := hh
      cases hh2
    | some p =>
      rw [hp] at hh
      have hh2 : (if isValid p = true then some (sha (fmtE164 p)) else none) = some h := hh
      by_cases hv : isValid p = true
      · rw [if_pos hv] at hh2
        exact ⟨p, rfl, hv, (Option.some_inj.mp hh2).symm⟩
      · rw [if_neg hv] at hh2
        cases hh2
  · intro p hp
    rw [parsePlanMain] at hp
    cases hparse : parse (digitsOnly s) (some "US") with
    | some q =>
      rw [hparse] at hp
      have hp2 : some q = some p := hp
      exact Or.inl hp2
    | none =>
      rw [hparse] at hp
      have hp2 : (if (digitsOnly s).data.head? = some '1' ∧ 10 < strLen (digitsOnly s)
          then parse ("+" ++ digitsOnly s) none else none) = some p := hp
      split_ifs at hp2 with hfb
      exact Or.inr ⟨rfl, hfb.1, hfb.2, hp2⟩
  · intro p hp hv
    simp only [processPhoneMain]
    split_ifs with h1 h2
    · rw [hp]
      show (if isValid p = true then some (sha (fmtE164 p)) else none) = none
      simp [hv]
    · rfl
    · rfl
  · intro hp
    simp only [processPhoneMain]
    split_ifs with h1 h2
    · rw [hp]
    · rfl
    · rfl
  · intro parse2 isValid2 fmt2
    rw [processRowMain, processRowMain]
    by_cases hb : brandSkip bf (rowBrandRaw r) = true
    · rw [if_pos hb, if_pos hb]
      exact ⟨rfl, rfl⟩
    · rw [if_neg hb, if_neg hb]
      constructor
      · rw [appendOperation_emailCount, appendOperation_emailCount]
        rfl
      · rw [appendOperation_addressCount, appendOperation_addressCount]
        rfl

/-- C7 counterexample: the standalone CSV uploader emits a phone
identifier for the obviously invalid phone "123" — no stripping, no
parsing, no validity check — and the string it hashes is the raw
trimmed, lowercased phone "123", which is not an E.164 canonical string
(it does not start with '+'); the claim requires such a phone to be
absent and any produced hash to be of a '+'-prefixed E.164 string. -/
theorem c7_counterexample :
    createUserDataOperations (fun s => s) [{ phone := some "123" }] =
      [[CsvIdentifier.phone "123"]] ∧
    "123".data.head? ≠ some '+' := by
  refine ⟨rfl, by decide⟩

/-! # Claim C5 — the US-only postal path -/

/-- C5 (amended): the variant that reads the state column accepts it
exactly when, after stripping and uppercasing, it has exactly two
CHARACTERS (not necessarily letters), and then yields country code "US";
its postal code is accepted exactly when at least five digits remain
after stripping non-digits, truncated to the first five.  The primary
implementation ignores the state column entirely: its country code "US"
appears exactly when the raw zip is truthy of length at least 5, and its
postal code exactly when the zip holds at least five digits.  In both
implementations the address identifier needs the country and the postal
components together — with either missing no address identifier is
built. -/
theorem c5_postal_path {P : Type} (parse : String → Option String → Option P)
    (isValid : P → Bool) (fmtE164 : P → String) (sha : String → String)
    (bf : Option String) (st : MainState) (r : Row) (v z : String) (hv sk : Bool)
    (hf hl cc pc : Option String) (skip : Bool) :
    ((asstProcessState (some v)).isSome = true ↔
      (v ≠ "" ∧ strLen (pyUpper (pyStrip v)) = 2)) ∧
    (∀ c, asstProcessState (some v) = some c → c = "US") ∧
    ((asstProcessZip (some z)).isSome = true ↔ 5 ≤ strLen (digitsOnly z)) ∧
    (∀ p, asstProcessZip (some z) = some p →
      p = String.mk ((digitsOnly z).data.take 5)) ∧
    ((processZipMain (some z) hv sk).postalCode.isSome = true ↔
      5 ≤ strLen (digitsOnly z)) ∧
    ((processZipMain (some z) hv sk).countryCode.isSome = true ↔
      (z ≠ "" ∧ 5 ≤ strLen z)) ∧
    (processRowMain parse isValid fmtE164 sha bf st { r with stateCode := some v }
        = processRowMain parse isValid fmtE164 sha bf st r) ∧
    (asstAddressComponent hf hl none pc skip = [] ∧
      asstAddressComponent hf hl cc none skip = []) := by
  refine ⟨?_, ?_, ?_, ?_, ?_, ?_, ?_, ?_, ?_⟩
  · simp only [asstProcessState]
    split_ifs with h1 h2
    · simp [h1]
    · simp [h1, h2]
    · simp [h1, h2]
  · intro c hc
    simp only [asstProcessState] at hc
    split_ifs at hc
    exact (Option.some_inj.mp hc).symm
  · simp only [asstProcessZip]
    split_ifs with h1 h2
    · subst h1
      constructor
      · intro hh; cases hh
      · intro hh
        exact absurd hh (by decide)
    · simp only [Option.isSome_some, true_iff]
      simpa [digitsOnly, strLen] using h2
    · simp only [Option.isSome_none, Bool.false_eq_true, false_iff]
      simpa [digitsOnly, strLen] using h2
  · intro p hp
    simp only [asstProcessZip] at hp
    split_ifs at hp
    exact (Option.some_inj.mp hp).symm
  · simp only [processZipMain]
    split_ifs with h1 h2 h3
    · simp only [Option.isSome_some, true_iff]
      have h2b : (List.take 5 (z.data.filter Char.isDigit)).length = 5 := h2
      rw [List.length_take] at h2b
      show 5 ≤ (z.data.filter Char.isDigit).length
      omega
    · simp only [Option.isSome_some, true_iff]
      have h2b : (List.take 5 (z.data.filter Char.isDigit)).length = 5 := h2
      rw [List.length_take] at h2b
      show 5 ≤ (z.data.filter Char.isDigit).length
      omega
    · simp only [Option.isSome_none, Bool.false_eq_true, false_iff]
      have h2b : ¬(List.take 5 (z.data.filter Char.isDigit)).length = 5 := h2
      rw [List.length_take] at h2b
      show ¬5 ≤ (z.data.filter Char.isDigit).length
      omega
    · simp only [Option.isSome_none, Bool.false_eq_true, false_iff]
      intro hd
      have hd2 : 5 ≤ (z.data.filter Char.isDigit).length := hd
      have hle : (z.data.filter Char.isDigit).length ≤ z.data.length :=
        List.length_filter_le _ _
      have hzlen : 5 ≤ strLen z := by
        show 5 ≤ z.data.length
        omega
      push_neg at h1
      have hz : z ≠ "" := by
        intro hzz
        subst hzz
        have hempty : ("" : String).data = [] := rfl
        have : 5 ≤ ([] : List Char).length := by
          rw [← hempty]
          exact hzlen
        simp at this
      have := h1 hz
      omega
  · simp only [processZipMain]
    split_ifs with h1 h2 h3
    · simp [h1]
    · simp [h1]
    · simp [h1]
    · simpa using h1
  · cases r
    rfl
  · cases skip <;> cases hf <;> cases hl <;> cases pc <;> rfl
  · cases skip <;> cases hf <;> cases hl <;> cases cc <;> rfl

/-- C5 counterexample: the attached variant accepts the state code "12"
— two digits, not two letters — and derives country code "US" from it,
so "accepts a state/region code only if it is exactly two letters" is
false at this input. -/
theorem c5_counterexample :
    asstProcessState (some "12") = some "US" ∧
    "12".data.all Char.isAlpha = false := by
  refine ⟨by decide, by decide⟩

end CustomerSync
